import Mathlib

/-!
Verification of the BallotDApp event synchronizer and read-model projector
(`backend/src/indexer/indexer.service.ts`) and the stats query
(`backend/src/stats/stats.service.ts`), as a shallow embedding in Lean 4.

The database is modelled as a pure state (`DbState`); each awaited Prisma
write in the source becomes a pure state transformation.  JavaScript numbers
produced by `Number(...)` from non-negative decimal integer strings are
modelled by `fl`, the IEEE-754 binary64 rounding of a natural number
(round to nearest, ties to even, 53-bit significand); `NaN` outcomes are
modelled by `Option Nat` with `none` standing for `NaN`.
-/

namespace BallotDApp

/-- Floor of the base-2 logarithm, written with an explicit recursion
bound so that it reduces inside the kernel; `1100` iterations cover every
number below `2^1100`, far beyond the binary64 overflow threshold
`2^1024`. -/
def log2floor : Nat → Nat → Nat
  | 0, _ => 0
  | fuel + 1, n => if n ≤ 1 then 0 else log2floor fuel (n / 2) + 1

/-- IEEE-754 binary64 rounding of a natural number: naturals up to `2^53`
are exactly representable; above that the value is rounded to the nearest
multiple of the unit in the last place (`2^(log2 n - 52)`), ties to even.
This models JavaScript `Number(s)` on a decimal string `s` holding a
non-negative integer (exact below the binary64 overflow threshold `2^1024`,
which is far above any value arising here). -/
def fl (n : Nat) : Nat :=
  if n < 2 ^ 53 then n
  else
    let e := log2floor 1100 n - 52
    let q := n / 2 ^ e
    let r := n % 2 ^ e
    let half := 2 ^ (e - 1)
    if r < half then q * 2 ^ e
    else if half < r then (q + 1) * 2 ^ e
    else if q % 2 = 0 then q * 2 ^ e else (q + 1) * 2 ^ e

theorem fl_of_lt (n : Nat) (h : n < 2 ^ 53) : fl n = n := by
  unfold fl
  rw [if_pos h]

/-- A decoded event-argument value.  `decodeLog` in the source converts every
`bigint` argument to its decimal string (`v.toString()`); `argNat n` models
that decimal string of the non-negative integer `n`, while `argStr s` models
any other string value (addresses etc.). -/
inductive EventArg where
  | argStr (s : String)
  | argNat (n : Nat)
deriving DecidableEq, Repr, Inhabited

/-- JavaScript `Number(x)` of a decoded argument (or of `undefined`, the
`none` case): a decimal integer string parses to its binary64 rounding; a
non-numeric string or `undefined` gives `NaN`, modelled as `none`. -/
def jsNumber : Option EventArg → Option Nat
  | none => none
  | some (.argNat n) => some (fl n)
  | some (.argStr _) => none

/-- The string content of a decoded argument (an `argNat` stands for the
decimal string of its value). -/
def strOf : EventArg → String
  | .argStr s => s
  | .argNat n => toString n

/-- JavaScript truthiness of a decoded argument:  `undefined` is falsy, a
string is truthy iff non-empty (an `argNat` models a non-empty decimal
string, hence truthy). -/
def isTruthy : Option EventArg → Bool
  | none => false
  | some (.argStr s) => !(s = "")
  | some (.argNat _) => true

/-- Lower-casing of a string, modelling JavaScript `toLowerCase` on the
ASCII strings (addresses) that occur here. -/
def jsToLower (s : String) : String := String.mk (s.data.map Char.toLower)

/-- The decoded args object built by `decodeLog`: named arguments, plus the
`__positional` array of positionally-keyed arguments (kept sparse, as an
index-keyed association list). -/
structure ArgsJson where
  named : List (String × EventArg)
  positional : List (Nat × EventArg)
deriving DecidableEq, Repr

def ArgsJson.empty : ArgsJson := ⟨[], []⟩

/-- Association-list lookup (models a JavaScript object property read /
sparse array index read). -/
def alistFind {κ β : Type} [DecidableEq κ] (k : κ) : List (κ × β) → Option β
  | [] => none
  | (k', v) :: rest => if k' = k then some v else alistFind k rest

/-- Association-list upsert, modelling Prisma `upsert`: if a row with the
key exists apply `upd` to it, otherwise append a row `mk`. -/
def alistUpsert {κ β : Type} [DecidableEq κ] (k : κ) (upd : β → β) (mk : β) :
    List (κ × β) → List (κ × β)
  | [] => [(k, mk)]
  | (k', v) :: rest =>
    if k' = k then (k', upd v) :: rest else (k', v) :: alistUpsert k upd mk rest

/-- `this.getArg(argsJson, name, pos)`: prefer the named argument, fall back
to the positional array. -/
def getArg (args : ArgsJson) (name : String) (pos : Nat) : Option EventArg :=
  match alistFind name args.named with
  | some v => some v
  | none => alistFind pos args.positional

/-- One row of the `BallotSnapshot` table (identity columns fixed: the
service works with one `(chainId, contractAddress)` pair). -/
structure Snapshot where
  lastIndexedBlock : Nat
  stage : Nat
  totalVoters : Nat
  totalVotes : Nat
  winnerComputed : Bool
  winningProposalId : Nat
deriving DecidableEq, Repr

/-- One row of the `Voter` table (key `voterAddress` kept outside).
`weight` is a JavaScript number (`none` = `NaN`). -/
structure VoterRow where
  weight : Option Nat
  hasVoted : Bool
  registeredAtBlock : Option Nat
  lastUpdatedBlock : Nat
deriving DecidableEq, Repr

/-- One row of the `Vote` table (key `voterAddress` kept outside). -/
structure VoteRow where
  proposalId : Nat
  weight : Option Nat
  txHash : String
  blockNumber : Nat
deriving DecidableEq, Repr

/-- One row of the `Proposal` table (key `proposalId` kept outside).
`voteCount` is stored as a string, exactly as in the schema. -/
structure ProposalRow where
  name : String
  voteCount : String
deriving DecidableEq, Repr

/-- One row of the `OnChainEvent` table; `(txHash, logIndex)` is the unique
key (chain and contract columns are fixed). -/
structure RawEventRow where
  blockNumber : Nat
  blockHash : String
  txHash : String
  logIndex : Nat
  eventName : String
  argsJson : ArgsJson
deriving DecidableEq, Repr

/-- The database state owned by the indexer: the raw-event ledger, the sync
cursor (`none` before `getOrCreateSyncState` first runs), and the read-model
tables. -/
structure DbState where
  events : List RawEventRow
  syncCursor : Option Nat
  snapshot : Option Snapshot
  voters : List (String × VoterRow)
  votes : List (String × VoteRow)
  proposals : List (Nat × ProposalRow)
deriving DecidableEq, Repr

/-- Does the raw-event ledger already hold an entry with this unique key?
(Models the `(chainId, txHash, logIndex)` unique constraint.) -/
def hasEventKey (s : DbState) (tx : String) (idx : Nat) : Bool :=
  s.events.any fun r => r.txHash = tx && r.logIndex = idx

/-- Decimal-digit string parse (JavaScript `Number` on the stored
`voteCount` strings, which are always decimal integers; a non-digit makes
the parse fail, modelling `NaN`). -/
def parseDec (s : String) : Option Nat :=
  s.data.foldl
    (fun acc c =>
      acc.bind fun a => if c.isDigit then some (a * 10 + (c.toNat - 48)) else none)
    (some 0)

/-- `Number(s)` for a stored numeric string: parse, then binary64 round. -/
def jsNumOfStr (s : String) : Option Nat := (parseDec s).map fl

/-- JavaScript `String(x)` on a non-negative integer-valued number
(`"NaN"` for `NaN`); exact decimal printing holds for every value below
`10^21`, which covers all values arising here. -/
def jsString : Option Nat → String
  | some n => toString n
  | none => "NaN"

/-- Update the snapshot row through the given function; models
`prisma.ballotSnapshot.update` (the row is guaranteed present at every call
site, since `applyReadModelProjection` upserts it first). -/
def updateSnapshot (f : Snapshot → Snapshot) (s : DbState) : DbState :=
  { s with snapshot := s.snapshot.map f }

/-- `applyReadModelProjection(eventName, argsJson, blockNumber, txHash)`:
ensure the snapshot row exists and stamp `lastIndexedBlock`, then dispatch
on the event name exactly as the source does. -/
def applyReadModelProjection (eventName : String) (args : ArgsJson)
    (blockNumber : Nat) (txHash : String) (s : DbState) : DbState :=
  -- Ensure snapshot exists (upsert: update stamps lastIndexedBlock,
  -- create uses the defaults from the source).
  let s :=
    { s with
      snapshot := some (match s.snapshot with
        | some snap => { snap with lastIndexedBlock := blockNumber }
        | none =>
          { lastIndexedBlock := blockNumber, stage := 0, totalVoters := 0,
            totalVotes := 0, winnerComputed := false, winningProposalId := 0 }) }
  if eventName = "StageChanged" then
    match jsNumber (getArg args "newStage" 0) with
    | some newStage => updateSnapshot (fun snap => { snap with stage := newStage }) s
    | none => s
  else if eventName = "VoterRegistered" then
    let voterArg := getArg args "voter" 0
    -- `Number(weightRaw ?? 1)`: a missing field defaults to 1 before conversion.
    let weight : Option Nat :=
      match getArg args "weight" 1 with
      | none => some 1
      | some a => jsNumber (some a)
    if isTruthy voterArg then
      let key := jsToLower (strOf voterArg.get!)
      let s :=
        { s with
          voters := alistUpsert key
            (fun v =>
              { v with weight := weight, registeredAtBlock := some blockNumber,
                       lastUpdatedBlock := blockNumber })
            { weight := weight, hasVoted := false,
              registeredAtBlock := some blockNumber, lastUpdatedBlock := blockNumber }
            s.voters }
      updateSnapshot (fun snap => { snap with totalVoters := snap.totalVoters + 1 }) s
    else s
  else if eventName = "VoteCast" then
    let voterArg := getArg args "voter" 0
    let proposalId := jsNumber (getArg args "proposalId" 1)
    let weight := jsNumber (getArg args "weight" 2)
    if voterArg.isSome ∧ proposalId.isSome then
      let key := jsToLower (strOf voterArg.get!)
      let pid := proposalId.get!
      -- Store one vote per voter (unique constraint).
      let s :=
        { s with
          votes := alistUpsert key
            (fun _ =>
              { proposalId := pid, weight := weight, txHash := txHash,
                blockNumber := blockNumber })
            { proposalId := pid, weight := weight, txHash := txHash,
              blockNumber := blockNumber }
            s.votes }
      -- Mark voter as voted (defensive create when no Voter row exists).
      let s :=
        { s with
          voters := alistUpsert key
            (fun v => { v with hasVoted := true, lastUpdatedBlock := blockNumber })
            { weight := some (weight.getD 1), hasVoted := true,
              registeredAtBlock := none, lastUpdatedBlock := blockNumber }
            s.voters }
      -- Update proposal cached voteCount (stored as string): read, add, rewrite.
      let current : Option Nat :=
        match alistFind pid s.proposals with
        | none => some 0
        | some p => jsNumOfStr p.voteCount
      -- binary64 addition of two integer-valued numbers: round the exact sum.
      let next : Option Nat := current.map fun c => fl (c + weight.getD 0)
      let s :=
        { s with
          proposals := alistUpsert pid
            (fun p => { p with voteCount := jsString next })
            { name := "proposal-" ++ toString pid, voteCount := jsString next }
            s.proposals }
      updateSnapshot (fun snap => { snap with totalVotes := snap.totalVotes + 1 }) s
    else s
  else if eventName = "Finalized" then
    match jsNumber (getArg args "winningProposalId" 0) with
    | some winningProposalId =>
      updateSnapshot
        (fun snap =>
          { snap with winnerComputed := true, winningProposalId := winningProposalId })
        s
    | none => s
  else s

/-- The shape of one log entry as returned by the source: either an ethers
`EventLog` (already decoded: a fragment name when present and the `args`
entries, keyed either positionally — `inl i`, a numeric-string key — or by
name — `inr n`), or a raw `Log`, for which `interface.parseLog` either
yields a name and entries or fails (`none` covers both a `null` result and
a thrown decode error, which the source catches). -/
inductive LogShape where
  | eventLog (fragmentName : Option String) (entries : List ((Nat ⊕ String) × EventArg))
  | rawLog (parsed : Option (String × List ((Nat ⊕ String) × EventArg)))
deriving DecidableEq, Repr

/-- Split decoded `args` entries into the named map and the positional
array, as both branches of `decodeLog` do. -/
def splitArgs (entries : List ((Nat ⊕ String) × EventArg)) : ArgsJson :=
  entries.foldl
    (fun acc kv =>
      match kv.1 with
      | .inl i => { acc with positional := alistUpsert i (fun _ => kv.2) kv.2 acc.positional }
      | .inr k => { acc with named := alistUpsert k (fun _ => kv.2) kv.2 acc.named })
    ArgsJson.empty

/-- `decodeLog(ev)`: an `EventLog` uses its fragment name (falling back to
`"UnknownEvent"`); a raw `Log` is decoded through the contract interface,
and any parse failure degrades to `("UnknownEvent", {})` instead of
raising. -/
def decodeLog : LogShape → String × ArgsJson
  | .eventLog fragmentName entries =>
    (fragmentName.getD "UnknownEvent", splitArgs entries)
  | .rawLog none => ("UnknownEvent", ArgsJson.empty)
  | .rawLog (some (name, entries)) => (name, splitArgs entries)

/-- One fetched log entry: block/transaction coordinates plus its decodable
shape. -/
structure ChainLog where
  blockNumber : Nat
  blockHash : String
  txHash : String
  logIndex : Nat
  shape : LogShape
deriving DecidableEq, Repr

/-- The per-entry body of the catch-up loop: decode, insert the raw event
(a duplicate key is a no-op thanks to the unique constraint — the `P2002`
branch), and invoke the projection only when the insert created a row. -/
def processEvent (ev : ChainLog) (s : DbState) : DbState :=
  let d := decodeLog ev.shape
  if hasEventKey s ev.txHash ev.logIndex then s
  else
    let s :=
      { s with
        events := s.events ++
          [{ blockNumber := ev.blockNumber, blockHash := ev.blockHash,
             txHash := ev.txHash, logIndex := ev.logIndex,
             eventName := d.1, argsJson := d.2 }] }
    applyReadModelProjection d.1 d.2 ev.blockNumber ev.txHash s

/-- `prisma.contractSyncState.update(... lastProcessedBlock: toBlock)`: the
unconditional cursor write at the end of each range (the row is present at
every call site, created by `getOrCreateSyncState`). -/
def advanceCursor (newBlock : Nat) (s : DbState) : DbState :=
  { s with syncCursor := some newBlock }

/-- One processed range of the catch-up loop: handle each fetched entry in
order, then commit the cursor to the end of the range. -/
def processRange (logs : List ChainLog) (toBlock : Nat) (s : DbState) : DbState :=
  advanceCursor toBlock (logs.foldl (fun st ev => processEvent ev st) s)

/-- Configuration knobs of the indexer that the sync loop reads. -/
structure SyncConfig where
  maxRange : Nat        -- MAX_LOG_BLOCK_RANGE
  confirmations : Nat   -- CONFIRMATIONS
  deploymentBlock : Nat -- DEPLOYMENT_BLOCK ("0" when absent)
deriving DecidableEq, Repr

/-- `getOrCreateSyncState`: upsert with an empty update — an existing row is
returned unchanged, an absent row is created with the computed default
start (`max(deploymentBlock - 1, 0)` when a deployment block is configured,
else `max(latest - 100, 0)`; `Nat` subtraction models the `Math.max(·, 0)`
truncation). -/
def getOrCreateSyncState (cfg : SyncConfig) (latest : Nat) (s : DbState) : DbState :=
  match s.syncCursor with
  | some _ => s
  | none =>
    { s with
      syncCursor :=
        some (if 0 < cfg.deploymentBlock then cfg.deploymentBlock - 1 else latest - 100) }

/-- The `while (fromBlock <= safeLatest)` loop of `catchUpOnce`, with the
block source passed in as a pure function.  The loop is written with a fuel
parameter; `catchUpOnce` supplies `safeLatest + 1 - fromBlock` fuel, which
is enough whenever `maxRange ≥ 1` (every iteration advances `fromBlock` by
at least `maxRange`). -/
def catchUpLoop (cfg : SyncConfig) (getLogs : Nat → Nat → List ChainLog)
    (safeLatest : Nat) : Nat → Nat → DbState → DbState
  | 0, _, s => s
  | fuel + 1, fromBlock, s =>
    if safeLatest < fromBlock then s
    else
      let toBlock := min (fromBlock + cfg.maxRange - 1) safeLatest
      let s := processRange (getLogs fromBlock toBlock) toBlock s
      catchUpLoop cfg getLogs safeLatest fuel (toBlock + 1) s

/-- The stored cursor value (defined once `getOrCreateSyncState` has run). -/
def cursorVal (s : DbState) : Nat := s.syncCursor.getD 0

/-- `catchUpOnce()`: read-or-create the cursor, compute the safe tip
(`max(latest - CONFIRMATIONS, 0)`, again via truncated subtraction), and
either end as a no-op (`fromBlock > safeLatest`) or run the range loop
until the backlog is exhausted. -/
def catchUpOnce (cfg : SyncConfig) (getLogs : Nat → Nat → List ChainLog)
    (latest : Nat) (s : DbState) : DbState :=
  let s1 := getOrCreateSyncState cfg latest s
  let safeLatest := latest - cfg.confirmations
  let fromBlock := cursorVal s1 + 1
  if safeLatest < fromBlock then s1
  else catchUpLoop cfg getLogs safeLatest (safeLatest + 1 - fromBlock) fromBlock s1

/-- The successive `(fromBlock, toBlock)` ranges the catch-up loop visits
(same fuel discipline as `catchUpLoop`). -/
def syncRanges (maxRange safeLatest : Nat) : Nat → Nat → List (Nat × Nat)
  | 0, _ => []
  | fuel + 1, fromBlock =>
    if safeLatest < fromBlock then []
    else
      let toBlock := min (fromBlock + maxRange - 1) safeLatest
      (fromBlock, toBlock) :: syncRanges maxRange safeLatest fuel (toBlock + 1)

/-- The sequence of database states a concurrent reader can observe while
one range is processed: the state before the range, the state after each
entry's own writes (each awaited Prisma call commits on its own — there is
no surrounding transaction), and finally the state after the cursor
commit. -/
def rangeTrace (logs : List ChainLog) (toBlock : Nat) (s : DbState) : List DbState :=
  (logs.scanl (fun st ev => processEvent ev st) s) ++ [processRange logs toBlock s]

/-- One outcome of calling the wrapped RPC function. -/
inductive CallResult (α : Type) where
  | ok (v : α)
  | err (code : Option Int) (message : String)
deriving DecidableEq, Repr

/-- Does the first list start with the second? -/
def listStartsWith {α : Type} [DecidableEq α] : List α → List α → Bool
  | _, [] => true
  | [], _ :: _ => false
  | x :: xs, y :: ys => x = y && listStartsWith xs ys

/-- Does the second list occur contiguously inside the first? -/
def listHasSub {α : Type} [DecidableEq α] : List α → List α → Bool
  | [], pat => pat.isEmpty
  | x :: xs, pat => listStartsWith (x :: xs) pat || listHasSub xs pat

/-- Does `needle` occur as a substring of `hay`?  (JavaScript
`hay.includes(needle)`.) -/
def strContains (hay needle : String) : Bool :=
  listHasSub hay.data needle.data

/-- `isRateLimitError(e)`: HTTP 429 code or the Alchemy throughput message
(the source reads the code and message through the `e.error ?? e`
fallbacks; the model carries the resolved code and message directly). -/
def isRateLimitError (code : Option Int) (message : String) : Bool :=
  code == some 429 || strContains message "compute units per second"

/-- The retry loop of `withRetry`, with the sequence of call outcomes
supplied as a pure function of the attempt counter.  The source counts
attempts upward and stops retrying once `attempt >= RPC_MAX_RETRIES`; here
the loop carries the remaining retry budget `RPC_MAX_RETRIES - attempt`
(so `budget = 0` ⟺ `attempt >= RPC_MAX_RETRIES`), which also gives the
structural recursion.  The result is the final outcome plus the list of
backoff waits `min(base·2^attempt, cap)` performed, in order. -/
def withRetryGo {α : Type} (base cap : Nat) (calls : Nat → CallResult α) :
    Nat → Nat → Except (Option Int × String) α × List Nat
  | budget, attempt =>
    match calls attempt, budget with
    | .ok v, _ => (.ok v, [])
    | .err code msg, 0 => (.error (code, msg), [])
    | .err code msg, b + 1 =>
      if isRateLimitError code msg then
        let w := min (base * 2 ^ attempt) cap
        let r := withRetryGo base cap calls b (attempt + 1)
        (r.1, w :: r.2)
      else (.error (code, msg), [])

/-- `withRetry(fn, label)`: run the call, retrying only on rate-limit
errors, starting at attempt 0 with the full retry budget. -/
def withRetry {α : Type} (maxRetries base cap : Nat) (calls : Nat → CallResult α) :
    Except (Option Int × String) α × List Nat :=
  withRetryGo base cap calls maxRetries 0

/-- Rounding to four decimal places, as a rational:
`Number(x.toFixed(4))` on the non-negative values arising here. -/
def toFixed4 (x : ℚ) : ℚ := (round (x * 10000) : ℤ) / 10000

/-- The response shape of `StatsService.getStats` (identity echo fields
omitted; `participationRate` modelled as an exact rational, see
`toFixed4`). -/
structure StatsResponse where
  stage : Nat
  totalVoters : Nat
  totalVotes : Nat
  participationRate : ℚ
  winnerComputed : Bool
  winnerProposalId : Nat
  proposals : List (Nat × String × String)
  lastIndexedBlock : Nat
deriving DecidableEq, Repr

/-- `getStats`: read the snapshot and proposals from the read model, apply
defensive defaults when the snapshot is missing, and derive the
participation rate off-chain, guarding the division by `totalVoters > 0`. -/
def getStats (s : DbState) : StatsResponse :=
  let totalVoters := (s.snapshot.map Snapshot.totalVoters).getD 0
  let totalVotes := (s.snapshot.map Snapshot.totalVotes).getD 0
  let participationRate : ℚ :=
    if 0 < totalVoters then toFixed4 ((totalVotes : ℚ) / (totalVoters : ℚ)) else 0
  { stage := (s.snapshot.map Snapshot.stage).getD 0
    totalVoters := totalVoters
    totalVotes := totalVotes
    participationRate := participationRate
    winnerComputed := (s.snapshot.map Snapshot.winnerComputed).getD false
    winnerProposalId := (s.snapshot.map Snapshot.winningProposalId).getD 0
    proposals := (s.proposals.mergeSort (fun a b => a.1 ≤ b.1)).map
      (fun p => (p.1, p.2.name, p.2.voteCount))
    lastIndexedBlock := (s.snapshot.map Snapshot.lastIndexedBlock).getD 0 }

/-! ## Helper lemmas -/

theorem apply_events_eq (n : String) (args : ArgsJson) (bn : Nat) (tx : String)
    (s : DbState) : (applyReadModelProjection n args bn tx s).events = s.events := by
  unfold applyReadModelProjection updateSnapshot
  repeat' split <;> dsimp only <;> repeat' split <;> try rfl

theorem apply_cursor_eq (n : String) (args : ArgsJson) (bn : Nat) (tx : String)
    (s : DbState) : (applyReadModelProjection n args bn tx s).syncCursor = s.syncCursor := by
  unfold applyReadModelProjection updateSnapshot
  repeat' split <;> dsimp only <;> repeat' split <;> try rfl

theorem processEvent_cursor_eq (ev : ChainLog) (s : DbState) :
    (processEvent ev s).syncCursor = s.syncCursor := by
  unfold processEvent
  split
  · rfl
  · rw [apply_cursor_eq]

theorem foldl_processEvent_cursor_eq (logs : List ChainLog) (s : DbState) :
    (logs.foldl (fun st ev => processEvent ev st) s).syncCursor = s.syncCursor := by
  induction logs generalizing s with
  | nil => rfl
  | cons ev rest ih =>
    simp only [List.foldl_cons]
    rw [ih (processEvent ev s), processEvent_cursor_eq]

theorem cursorVal_processRange (logs : List ChainLog) (tb : Nat) (s : DbState) :
    cursorVal (processRange logs tb s) = tb := rfl

theorem processEvent_of_hasKey (ev : ChainLog) (s : DbState)
    (h : hasEventKey s ev.txHash ev.logIndex = true) : processEvent ev s = s := by
  unfold processEvent
  simp [h]

theorem hasEventKey_processEvent_self (ev : ChainLog) (s : DbState) :
    hasEventKey (processEvent ev s) ev.txHash ev.logIndex = true := by
  unfold processEvent
  split
  · assumption
  · simp [hasEventKey, apply_events_eq]

theorem hasEventKey_processEvent_mono (ev : ChainLog) (s : DbState) (t : String) (i : Nat)
    (h : hasEventKey s t i = true) : hasEventKey (processEvent ev s) t i = true := by
  unfold processEvent
  split
  · exact h
  · simp only [hasEventKey, apply_events_eq, List.any_append]
    simp only [hasEventKey] at h
    simp [h]

theorem hasEventKey_foldl_mono (logs : List ChainLog) (s : DbState) (t : String) (i : Nat)
    (h : hasEventKey s t i = true) :
    hasEventKey (logs.foldl (fun st ev => processEvent ev st) s) t i = true := by
  induction logs generalizing s with
  | nil => exact h
  | cons ev rest ih => exact ih _ (hasEventKey_processEvent_mono ev s t i h)

theorem hasEventKey_foldl_all (logs : List ChainLog) (s : DbState) :
    ∀ ev ∈ logs,
      hasEventKey (logs.foldl (fun st e => processEvent e st) s) ev.txHash ev.logIndex = true := by
  induction logs generalizing s with
  | nil => intro ev h; cases h
  | cons e rest ih =>
    intro ev h
    cases List.mem_cons.mp h with
    | inl heq =>
      subst heq
      exact hasEventKey_foldl_mono rest _ _ _ (hasEventKey_processEvent_self _ _)
    | inr hm => exact ih _ ev hm

theorem foldl_processEvent_of_allKeys (logs : List ChainLog) (s : DbState)
    (h : ∀ ev ∈ logs, hasEventKey s ev.txHash ev.logIndex = true) :
    logs.foldl (fun st ev => processEvent ev st) s = s := by
  induction logs with
  | nil => rfl
  | cons ev rest ih =>
    have he : processEvent ev s = s :=
      processEvent_of_hasKey ev s (h ev (List.mem_cons_self _ _))
    simp only [List.foldl_cons, he]
    exact ih fun e hm => h e (List.mem_cons_of_mem _ hm)

theorem hasEventKey_advanceCursor (n : Nat) (s : DbState) (t : String) (i : Nat) :
    hasEventKey (advanceCursor n s) t i = hasEventKey s t i := rfl

theorem processRange_idem (logs : List ChainLog) (tb : Nat) (s : DbState) :
    processRange logs tb (processRange logs tb s) = processRange logs tb s := by
  unfold processRange
  have hkeys : ∀ ev ∈ logs,
      hasEventKey (advanceCursor tb (logs.foldl (fun st e => processEvent e st) s))
        ev.txHash ev.logIndex = true := by
    intro ev h
    rw [hasEventKey_advanceCursor]
    exact hasEventKey_foldl_all logs s ev h
  rw [foldl_processEvent_of_allKeys _ _ hkeys]
  rfl

/-! ## C1: idempotent apply -/

/-- C1.  The Projection Engine runs for a fetched entry exactly when the
raw-event insert created a new row: a duplicate-key entry is a complete
no-op (first conjunct), a fresh entry is recorded and then projected
(second conjunct), and consequently replaying the exact same block range
`N ≥ 1` times leaves the whole state — in particular the
Snapshot/Voter/Proposal aggregates — identical to replaying it once
(third conjunct). -/
theorem c1_replay_idempotent :
    (∀ (ev : ChainLog) (s : DbState),
        hasEventKey s ev.txHash ev.logIndex = true → processEvent ev s = s) ∧
    (∀ (ev : ChainLog) (s : DbState),
        hasEventKey s ev.txHash ev.logIndex = false →
        processEvent ev s =
          applyReadModelProjection (decodeLog ev.shape).1 (decodeLog ev.shape).2
            ev.blockNumber ev.txHash
            { s with
              events := s.events ++
                [{ blockNumber := ev.blockNumber, blockHash := ev.blockHash,
                   txHash := ev.txHash, logIndex := ev.logIndex,
                   eventName := (decodeLog ev.shape).1,
                   argsJson := (decodeLog ev.shape).2 }] }) ∧
    (∀ (logs : List ChainLog) (toBlock n : Nat) (s : DbState),
        (fun st => processRange logs toBlock st)^[n + 1] s =
          processRange logs toBlock s) := by
  refine ⟨processEvent_of_hasKey, ?_, ?_⟩
  · intro ev s h
    unfold processEvent
    simp [h]
  · intro logs toBlock n s
    induction n with
    | zero => rfl
    | succ n ih =>
      rw [Function.iterate_succ_apply', ih]
      exact processRange_idem logs toBlock s

/-- Witness for C1 at concrete inputs: a duplicate entry is a no-op, and
replaying a one-entry range three times equals replaying it once. -/
theorem c1_replay_idempotent_witness :
    processEvent ⟨105, "0xbh", "0xtx", 0, .rawLog none⟩
        ⟨[⟨105, "0xbh", "0xtx", 0, "UnknownEvent", ⟨[], []⟩⟩], some 99, none, [], [], []⟩ =
      ⟨[⟨105, "0xbh", "0xtx", 0, "UnknownEvent", ⟨[], []⟩⟩], some 99, none, [], [], []⟩ ∧
    (fun st => processRange [⟨105, "0xbh", "0xtx", 0, .rawLog none⟩] 110 st)^[3]
        ⟨[], some 99, none, [], [], []⟩ =
      processRange [⟨105, "0xbh", "0xtx", 0, .rawLog none⟩] 110
        ⟨[], some 99, none, [], [], []⟩ :=
  ⟨c1_replay_idempotent.1 _ _ (by decide), c1_replay_idempotent.2.2 _ _ 2 _⟩

/-! ## Cursor lemmas (C3, C4) -/

theorem catchUpLoop_of_lt (cfg : SyncConfig) (gl : Nat → Nat → List ChainLog)
    (safe fuel fb : Nat) (s : DbState) (h : safe < fb) :
    catchUpLoop cfg gl safe fuel fb s = s := by
  cases fuel with
  | zero => rfl
  | succ fuel => simp [catchUpLoop, h]

theorem catchUpLoop_cursor_mono (cfg : SyncConfig) (gl : Nat → Nat → List ChainLog)
    (safe : Nat) : ∀ (fuel fb : Nat) (s : DbState), cursorVal s < fb →
    cursorVal s ≤ cursorVal (catchUpLoop cfg gl safe fuel fb s) := by
  intro fuel
  induction fuel with
  | zero => intro fb s _; exact le_refl _
  | succ fuel ih =>
    intro fb s h
    unfold catchUpLoop
    split
    · exact le_refl _
    · have htb : cursorVal s ≤ min (fb + cfg.maxRange - 1) safe := by omega
      have h2 : cursorVal (processRange (gl fb (min (fb + cfg.maxRange - 1) safe))
          (min (fb + cfg.maxRange - 1) safe) s) = min (fb + cfg.maxRange - 1) safe :=
        cursorVal_processRange _ _ _
      refine le_trans htb ?_
      rw [← h2]
      exact ih _ _ (by rw [h2]; omega)

theorem getOrCreate_cursor_mono (cfg : SyncConfig) (latest : Nat) (s : DbState) :
    cursorVal s ≤ cursorVal (getOrCreateSyncState cfg latest s) := by
  unfold getOrCreateSyncState
  cases h : s.syncCursor with
  | none => simp [cursorVal, h]
  | some c => simp [cursorVal, h]

theorem catchUpOnce_cursor_mono (cfg : SyncConfig) (gl : Nat → Nat → List ChainLog)
    (latest : Nat) (s : DbState) :
    cursorVal s ≤ cursorVal (catchUpOnce cfg gl latest s) := by
  unfold catchUpOnce
  dsimp only
  refine le_trans (getOrCreate_cursor_mono cfg latest s) ?_
  split
  · exact le_refl _
  · exact catchUpLoop_cursor_mono cfg gl _ _ _ _ (by omega)

/-! ## C3: cursor monotonicity -/

/-- C3 (as written) is false on the code: the cursor write is the plain
`contractSyncState.update({ lastProcessedBlock: toBlock })` with no
backward check, so an advance to block 5 on a store whose cursor is 10 is
silently applied (the new value is stored) instead of raising an
invariant error. -/
theorem c3_counterexample :
    (advanceCursor 5 ⟨[], some 10, none, [], [], []⟩).syncCursor = some 5 ∧
    (5 : Nat) < 10 ∧
    (advanceCursor 5 ⟨[], some 10, none, [], [], []⟩) ≠
      (⟨[], some 10, none, [], [], []⟩ : DbState) := by
  refine ⟨rfl, by omega, by decide⟩

/-- C3 amended: over any sequence of catch-up passes the stored cursor is
non-decreasing (each pass only ever writes `toBlock ≥ cursor + 1`), but
the advance itself carries no backward-invariant check. -/
theorem c3_cursor_monotone :
    ∀ (cfg : SyncConfig) (passes : List ((Nat → Nat → List ChainLog) × Nat)) (s : DbState),
      cursorVal s ≤
        cursorVal (passes.foldl (fun st p => catchUpOnce cfg p.1 p.2 st) s) := by
  intro cfg passes
  induction passes with
  | nil => intro s; exact le_refl _
  | cons p rest ih =>
    intro s
    exact le_trans (catchUpOnce_cursor_mono cfg p.1 p.2 s) (ih _)

/-! ## C4: range computation of one catch-up pass -/

theorem catchUpLoop_eq_ranges (cfg : SyncConfig) (gl : Nat → Nat → List ChainLog)
    (safe : Nat) : ∀ (fuel fb : Nat) (s : DbState),
    catchUpLoop cfg gl safe fuel fb s =
      (syncRanges cfg.maxRange safe fuel fb).foldl
        (fun st r => processRange (gl r.1 r.2) r.2 st) s := by
  intro fuel
  induction fuel with
  | zero => intro fb s; rfl
  | succ fuel ih =>
    intro fb s
    unfold catchUpLoop syncRanges
    split
    · rfl
    · exact ih _ _

theorem catchUpLoop_cursor_exhausts (cfg : SyncConfig) (gl : Nat → Nat → List ChainLog)
    (safe : Nat) (hW : 1 ≤ cfg.maxRange) : ∀ (fuel fb : Nat) (s : DbState),
    fb ≤ safe → safe + 1 - fb ≤ fuel →
    cursorVal (catchUpLoop cfg gl safe fuel fb s) = safe := by
  intro fuel
  induction fuel with
  | zero => intro fb s h1 h2; omega
  | succ fuel ih =>
    intro fb s h1 h2
    unfold catchUpLoop
    rw [if_neg (by omega)]
    by_cases hc : min (fb + cfg.maxRange - 1) safe = safe
    · rw [catchUpLoop_of_lt cfg gl safe fuel _ _ (by omega)]
      rw [cursorVal_processRange, hc]
    · have htb : min (fb + cfg.maxRange - 1) safe + 1 ≤ safe := by omega
      rw [ih _ _ htb (by omega)]

/-- C4 amended.  General part (unchanged from the claim): with stored
cursor `c`, the pass computes `fromBlock = c + 1` and
`safeTip = max(tip - margin, 0)`; if `fromBlock > safeTip` the pass is a
no-op, and otherwise it folds `processRange` over the successive ranges
`[fromBlock, min(fromBlock + width - 1, safeTip)]` and, when the width is
positive, exhausts the backlog, ending with the cursor at `safeTip`.
Corrected scenario: deployment block 100 seeds the cursor to 99, so with
tip 130, margin 2 and width 10 the pass processes `[100,109]`, `[110,119]`,
`[120,128]` (not `[101,110]`, `[111,120]`, `[121,128]`) and the cursor ends
at 128. -/
theorem c4_range_computation :
    (∀ (cfg : SyncConfig) (gl : Nat → Nat → List ChainLog) (latest : Nat)
        (s : DbState) (c : Nat), s.syncCursor = some c →
      ((latest - cfg.confirmations < c + 1 → catchUpOnce cfg gl latest s = s) ∧
       catchUpOnce cfg gl latest s =
         (if latest - cfg.confirmations < c + 1 then s
          else (syncRanges cfg.maxRange (latest - cfg.confirmations)
                  (latest - cfg.confirmations + 1 - (c + 1)) (c + 1)).foldl
                 (fun st r => processRange (gl r.1 r.2) r.2 st) s) ∧
       (1 ≤ cfg.maxRange → c + 1 ≤ latest - cfg.confirmations →
         cursorVal (catchUpOnce cfg gl latest s) = latest - cfg.confirmations))) ∧
    syncRanges 10 128 29 100 = [(100, 109), (110, 119), (120, 128)] ∧
    (∀ gl : Nat → Nat → List ChainLog,
       cursorVal (catchUpOnce ⟨10, 2, 100⟩ gl 130 ⟨[], none, none, [], [], []⟩) = 128) := by
  refine ⟨?_, by decide, ?_⟩
  · intro cfg gl latest s c hc
    have hsame : getOrCreateSyncState cfg latest s = s := by
      unfold getOrCreateSyncState
      rw [hc]
    have hvs : cursorVal s = c := by simp [cursorVal, hc]
    refine ⟨?_, ?_, ?_⟩
    · intro h
      unfold catchUpOnce
      dsimp only
      rw [hsame, hvs, if_pos h]
    · unfold catchUpOnce
      dsimp only
      rw [hsame, hvs]
      split
      · rfl
      · exact catchUpLoop_eq_ranges cfg gl _ _ _ _
    · intro hW h
      unfold catchUpOnce
      dsimp only
      rw [hsame, hvs, if_neg (by omega)]
      exact catchUpLoop_cursor_exhausts cfg gl _ hW _ _ _ h (by omega)
  · intro gl
    unfold catchUpOnce
    dsimp only
    have hval : cursorVal (getOrCreateSyncState ⟨10, 2, 100⟩ 130 ⟨[], none, none, [], [], []⟩) = 99 := by
      decide
    rw [hval, if_neg (by decide)]
    exact catchUpLoop_cursor_exhausts _ gl _ (by decide) _ _ _ (by decide) (by decide)

/-- Witness for C4 at concrete inputs: a pass over an empty backlog is a
no-op, and the seeded scenario pass ends with the cursor at 128. -/
theorem c4_range_computation_witness :
    catchUpOnce ⟨10, 2, 100⟩ (fun _ _ => []) 130 ⟨[], some 130, none, [], [], []⟩ =
      ⟨[], some 130, none, [], [], []⟩ ∧
    cursorVal (catchUpOnce ⟨10, 2, 100⟩ (fun _ _ => []) 130 ⟨[], some 99, none, [], [], []⟩) = 128 :=
  ⟨((c4_range_computation.1 ⟨10, 2, 100⟩ (fun _ _ => []) 130 _ 130 rfl).1 (by decide)),
   ((c4_range_computation.1 ⟨10, 2, 100⟩ (fun _ _ => []) 130 _ 99 rfl).2.2 (by decide) (by decide))⟩

/-- C4 (as written) is false on the code at the scenario input: with
deployment block 100 the cursor is seeded to 99, so the first fetched
range is `[100,109]`, not `[101,110]` — a pass whose log source only
answers for the claimed range `[101,110]` records nothing, while one
answering for `[100,109]` does; the cursor still ends at 128. -/
theorem c4_counterexample :
    (catchUpOnce ⟨10, 2, 100⟩
        (fun f t => if f = 101 ∧ t = 110 then [⟨105, "0xb", "0xt", 0, .rawLog none⟩] else [])
        130 ⟨[], none, none, [], [], []⟩).events = [] ∧
    (catchUpOnce ⟨10, 2, 100⟩
        (fun f t => if f = 100 ∧ t = 109 then [⟨105, "0xb", "0xt", 0, .rawLog none⟩] else [])
        130 ⟨[], none, none, [], [], []⟩).events ≠ [] ∧
    cursorVal (catchUpOnce ⟨10, 2, 100⟩
        (fun f t => if f = 101 ∧ t = 110 then [⟨105, "0xb", "0xt", 0, .rawLog none⟩] else [])
        130 ⟨[], none, none, [], [], []⟩) = 128 := by
  refine ⟨by decide, by decide, by decide⟩

/-! ## C8: ordering barrier vs. reader visibility -/

theorem scanl_processEvent_cursor (logs : List ChainLog) :
    ∀ (s st : DbState), st ∈ logs.scanl (fun s2 ev => processEvent ev s2) s →
      st.syncCursor = s.syncCursor := by
  induction logs with
  | nil =>
    intro s st h
    rw [List.scanl_nil, List.mem_singleton] at h
    rw [h]
  | cons ev rest ih =>
    intro s st h
    rw [List.scanl_cons] at h
    rcases List.mem_append.mp h with h | h
    · rw [List.mem_singleton.mp h]
    · rw [ih _ st h, processEvent_cursor_eq]

/-- C8 amended.  The ordering half of the claim holds: within one processed
range every entry is recorded and projected before the cursor is advanced —
along the whole per-write trace of the range the cursor is untouched
(first conjunct), the cursor commit is the final observable state (second
conjunct), and the committed state is exactly the advanced post-fold state
(third conjunct).  The reader-invisibility half is dropped: the per-entry
writes are individually committed (no transaction), so they are observable
before the cursor commit — see the counterexample. -/
theorem c8_commit_barrier :
    (∀ (logs : List ChainLog) (s st : DbState),
        st ∈ logs.scanl (fun s2 ev => processEvent ev s2) s →
        st.syncCursor = s.syncCursor) ∧
    (∀ (logs : List ChainLog) (toBlock : Nat) (s : DbState),
        (rangeTrace logs toBlock s).getLast? = some (processRange logs toBlock s)) ∧
    (∀ (logs : List ChainLog) (toBlock : Nat) (s : DbState),
        processRange logs toBlock s =
          advanceCursor toBlock (logs.foldl (fun st ev => processEvent ev st) s)) := by
  refine ⟨scanl_processEvent_cursor, ?_, fun _ _ _ => rfl⟩
  intro logs toBlock s
  unfold rangeTrace
  exact List.getLast?_concat _

/-- Witness for C8 at concrete inputs: along the trace of a one-entry
range the pre-commit states keep the old cursor. -/
theorem c8_commit_barrier_witness :
    (processEvent ⟨105, "0xb", "0xt", 0,
        .eventLog (some "VoteCast")
          [(.inr "voter", .argStr "0xAB"), (.inr "proposalId", .argNat 1),
           (.inr "weight", .argNat 3)]⟩
      ⟨[], some 100, some ⟨100, 1, 1, 0, false, 0⟩, [], [], []⟩).syncCursor = some 100 :=
  c8_commit_barrier.1
    [⟨105, "0xb", "0xt", 0,
        .eventLog (some "VoteCast")
          [(.inr "voter", .argStr "0xAB"), (.inr "proposalId", .argNat 1),
           (.inr "weight", .argNat 3)]⟩]
    ⟨[], some 100, some ⟨100, 1, 1, 0, false, 0⟩, [], [], []⟩ _ (by decide)

/-- C8 (as written) is false on the code: the per-entry record and
projection writes are separate committed Prisma calls, so a reader can
observe an entry of a range — its ledger row and its projection effects
(here `totalVotes = 1`) — while the range's cursor commit has not yet
happened (the cursor still reads 100; it moves to 110 only at the end of
the range). -/
theorem c8_counterexample :
    (processEvent ⟨105, "0xb", "0xt", 0,
         .eventLog (some "VoteCast")
           [(.inr "voter", .argStr "0xAB"), (.inr "proposalId", .argNat 1),
            (.inr "weight", .argNat 3)]⟩
       ⟨[], some 100, some ⟨100, 1, 1, 0, false, 0⟩, [], [], []⟩) ∈
      rangeTrace
        [⟨105, "0xb", "0xt", 0,
           .eventLog (some "VoteCast")
             [(.inr "voter", .argStr "0xAB"), (.inr "proposalId", .argNat 1),
              (.inr "weight", .argNat 3)]⟩] 110
        ⟨[], some 100, some ⟨100, 1, 1, 0, false, 0⟩, [], [], []⟩ ∧
    (processEvent ⟨105, "0xb", "0xt", 0,
         .eventLog (some "VoteCast")
           [(.inr "voter", .argStr "0xAB"), (.inr "proposalId", .argNat 1),
            (.inr "weight", .argNat 3)]⟩
       ⟨[], some 100, some ⟨100, 1, 1, 0, false, 0⟩, [], [], []⟩).snapshot.map
        Snapshot.totalVotes = some 1 ∧
    hasEventKey
      (processEvent ⟨105, "0xb", "0xt", 0,
         .eventLog (some "VoteCast")
           [(.inr "voter", .argStr "0xAB"), (.inr "proposalId", .argNat 1),
            (.inr "weight", .argNat 3)]⟩
       ⟨[], some 100, some ⟨100, 1, 1, 0, false, 0⟩, [], [], []⟩) "0xt" 0 = true ∧
    (processEvent ⟨105, "0xb", "0xt", 0,
         .eventLog (some "VoteCast")
           [(.inr "voter", .argStr "0xAB"), (.inr "proposalId", .argNat 1),
            (.inr "weight", .argNat 3)]⟩
       ⟨[], some 100, some ⟨100, 1, 1, 0, false, 0⟩, [], [], []⟩).syncCursor = some 100 ∧
    (processRange
        [⟨105, "0xb", "0xt", 0,
           .eventLog (some "VoteCast")
             [(.inr "voter", .argStr "0xAB"), (.inr "proposalId", .argNat 1),
              (.inr "weight", .argNat 3)]⟩] 110
        ⟨[], some 100, some ⟨100, 1, 1, 0, false, 0⟩, [], [], []⟩).syncCursor = some 110 := by
  refine ⟨by decide, by decide, by decide, by decide, by decide⟩

/-! ## Projection recipe lemmas (C2, C9) -/

theorem alistFind_upsert_self {κ β : Type} [DecidableEq κ] (k : κ) (upd : β → β)
    (mk : β) (l : List (κ × β)) :
    alistFind k (alistUpsert k upd mk l) =
      some (match alistFind k l with | some v => upd v | none => mk) := by
  induction l with
  | nil => simp [alistFind, alistUpsert]
  | cons p rest ih =>
    by_cases h : p.1 = k
    · simp [alistFind, alistUpsert, h]
    · simp [alistFind, alistUpsert, h, ih]

theorem alistFind_upsert_const {κ β : Type} [DecidableEq κ] (k : κ) (b : β)
    (l : List (κ × β)) :
    alistFind k (alistUpsert k (fun _ => b) b l) = some b := by
  rw [alistFind_upsert_self]
  cases alistFind k l <;> rfl

theorem proj_stage (args : ArgsJson) (bn : Nat) (tx : String) (s : DbState)
    (snap : Snapshot) (n : Nat) (hs : s.snapshot = some snap)
    (ha : getArg args "newStage" 0 = some (.argNat n)) (hn : n < 2 ^ 53) :
    applyReadModelProjection "StageChanged" args bn tx s =
      { s with snapshot := some { snap with lastIndexedBlock := bn, stage := n } } := by
  unfold applyReadModelProjection updateSnapshot
  simp [hs, ha, jsNumber, fl_of_lt n hn]

theorem proj_register (args : ArgsJson) (bn : Nat) (tx : String) (s : DbState)
    (snap : Snapshot) (v : String) (w : Nat) (hs : s.snapshot = some snap)
    (hv : getArg args "voter" 0 = some (.argStr v)) (hne : v ≠ "")
    (hw : getArg args "weight" 1 = some (.argNat w)) (hwlt : w < 2 ^ 53) :
    applyReadModelProjection "VoterRegistered" args bn tx s =
      { s with
        voters := alistUpsert (jsToLower v)
          (fun r => { r with weight := some w, registeredAtBlock := some bn,
                             lastUpdatedBlock := bn })
          { weight := some w, hasVoted := false, registeredAtBlock := some bn,
            lastUpdatedBlock := bn }
          s.voters,
        snapshot := some { snap with lastIndexedBlock := bn,
                                     totalVoters := snap.totalVoters + 1 } } := by
  unfold applyReadModelProjection updateSnapshot
  simp [hs, hv, hw, jsNumber, fl_of_lt w hwlt, isTruthy, hne, strOf]

theorem proj_voteCast (args : ArgsJson) (bn : Nat) (tx : String) (s : DbState)
    (snap : Snapshot) (v : String) (p w : Nat) (pr : ProposalRow) (c : Nat)
    (hs : s.snapshot = some snap)
    (hv : getArg args "voter" 0 = some (.argStr v))
    (hp : getArg args "proposalId" 1 = some (.argNat p)) (hplt : p < 2 ^ 53)
    (hw : getArg args "weight" 2 = some (.argNat w)) (hwlt : w < 2 ^ 53)
    (hpr : alistFind p s.proposals = some pr)
    (hc : jsNumOfStr pr.voteCount = some c) (hsum : c + w < 2 ^ 53) :
    applyReadModelProjection "VoteCast" args bn tx s =
      { s with
        votes := alistUpsert (jsToLower v)
          (fun _ => { proposalId := p, weight := some w, txHash := tx, blockNumber := bn })
          { proposalId := p, weight := some w, txHash := tx, blockNumber := bn }
          s.votes,
        voters := alistUpsert (jsToLower v)
          (fun r => { r with hasVoted := true, lastUpdatedBlock := bn })
          { weight := some w, hasVoted := true, registeredAtBlock := none,
            lastUpdatedBlock := bn }
          s.voters,
        proposals := alistUpsert p
          (fun q => { q with voteCount := toString (c + w) })
          { name := "proposal-" ++ toString p, voteCount := toString (c + w) }
          s.proposals,
        snapshot := some { snap with lastIndexedBlock := bn,
                                     totalVotes := snap.totalVotes + 1 } } := by
  unfold applyReadModelProjection updateSnapshot
  simp [hs, hv, hp, hw, jsNumber, fl_of_lt w hwlt, fl_of_lt p hplt, strOf, hpr, hc,
    fl_of_lt (c + w) hsum, jsString]

theorem proj_finalized (args : ArgsJson) (bn : Nat) (tx : String) (s : DbState)
    (snap : Snapshot) (p : Nat) (hs : s.snapshot = some snap)
    (ha : getArg args "winningProposalId" 0 = some (.argNat p)) (hp : p < 2 ^ 53) :
    applyReadModelProjection "Finalized" args bn tx s =
      { s with snapshot := some { snap with lastIndexedBlock := bn,
                                            winnerComputed := true,
                                            winningProposalId := p } } := by
  unfold applyReadModelProjection updateSnapshot
  simp [hs, ha, jsNumber, fl_of_lt p hp]

theorem proj_unknown (name : String) (args : ArgsJson) (bn : Nat) (tx : String)
    (s : DbState) (snap : Snapshot) (hs : s.snapshot = some snap)
    (h1 : name ≠ "StageChanged") (h2 : name ≠ "VoterRegistered")
    (h3 : name ≠ "VoteCast") (h4 : name ≠ "Finalized") :
    applyReadModelProjection name args bn tx s =
      { s with snapshot := some { snap with lastIndexedBlock := bn } } := by
  unfold applyReadModelProjection updateSnapshot
  simp [hs, h1, h2, h3, h4]

theorem proj_lastIndexed (name : String) (args : ArgsJson) (bn : Nat) (tx : String)
    (s : DbState) :
    (applyReadModelProjection name args bn tx s).snapshot.map Snapshot.lastIndexedBlock =
      some bn := by
  unfold applyReadModelProjection updateSnapshot
  repeat' split <;> dsimp only <;> repeat' split <;> try rfl

/-! ## C2: the per-kind transition recipes -/

/-- C2.  The projection maps each decoded event kind to exactly its fixed
transition recipe (stated on well-formed decoded fields, i.e. values below
`2^53` where JavaScript number conversion is exact): `StageChanged` sets
the stage; `VoterRegistered` upserts the voter row and bumps
`totalVoters`; `VoteCast` upserts the per-voter vote row, marks the voter
as having voted, adds the weight to the proposal's string-stored
`voteCount`, and bumps `totalVotes`; `Finalized` records the winner;
every other kind changes no aggregate; and every applied event of any
kind stamps `Snapshot.lastIndexedBlock` with its block number. -/
theorem c2_projection_recipes :
    (∀ (args : ArgsJson) (bn : Nat) (tx : String) (s : DbState) (snap : Snapshot)
        (n : Nat), s.snapshot = some snap →
        getArg args "newStage" 0 = some (.argNat n) → n < 2 ^ 53 →
        applyReadModelProjection "StageChanged" args bn tx s =
          { s with snapshot := some { snap with lastIndexedBlock := bn, stage := n } }) ∧
    (∀ (args : ArgsJson) (bn : Nat) (tx : String) (s : DbState) (snap : Snapshot)
        (v : String) (w : Nat), s.snapshot = some snap →
        getArg args "voter" 0 = some (.argStr v) → v ≠ "" →
        getArg args "weight" 1 = some (.argNat w) → w < 2 ^ 53 →
        applyReadModelProjection "VoterRegistered" args bn tx s =
          { s with
            voters := alistUpsert (jsToLower v)
              (fun r => { r with weight := some w, registeredAtBlock := some bn,
                                 lastUpdatedBlock := bn })
              { weight := some w, hasVoted := false, registeredAtBlock := some bn,
                lastUpdatedBlock := bn }
              s.voters,
            snapshot := some { snap with lastIndexedBlock := bn,
                                         totalVoters := snap.totalVoters + 1 } }) ∧
    (∀ (args : ArgsJson) (bn : Nat) (tx : String) (s : DbState) (snap : Snapshot)
        (v : String) (p w : Nat) (pr : ProposalRow) (c : Nat), s.snapshot = some snap →
        getArg args "voter" 0 = some (.argStr v) →
        getArg args "proposalId" 1 = some (.argNat p) → p < 2 ^ 53 →
        getArg args "weight" 2 = some (.argNat w) → w < 2 ^ 53 →
        alistFind p s.proposals = some pr →
        jsNumOfStr pr.voteCount = some c → c + w < 2 ^ 53 →
        applyReadModelProjection "VoteCast" args bn tx s =
          { s with
            votes := alistUpsert (jsToLower v)
              (fun _ => { proposalId := p, weight := some w, txHash := tx,
                          blockNumber := bn })
              { proposalId := p, weight := some w, txHash := tx, blockNumber := bn }
              s.votes,
            voters := alistUpsert (jsToLower v)
              (fun r => { r with hasVoted := true, lastUpdatedBlock := bn })
              { weight := some w, hasVoted := true, registeredAtBlock := none,
                lastUpdatedBlock := bn }
              s.voters,
            proposals := alistUpsert p
              (fun q => { q with voteCount := toString (c + w) })
              { name := "proposal-" ++ toString p, voteCount := toString (c + w) }
              s.proposals,
            snapshot := some { snap with lastIndexedBlock := bn,
                                         totalVotes := snap.totalVotes + 1 } }) ∧
    (∀ (args : ArgsJson) (bn : Nat) (tx : String) (s : DbState) (snap : Snapshot)
        (p : Nat), s.snapshot = some snap →
        getArg args "winningProposalId" 0 = some (.argNat p) → p < 2 ^ 53 →
        applyReadModelProjection "Finalized" args bn tx s =
          { s with snapshot := some { snap with lastIndexedBlock := bn,
                                                winnerComputed := true,
                                                winningProposalId := p } }) ∧
    (∀ (name : String) (args : ArgsJson) (bn : Nat) (tx : String) (s : DbState)
        (snap : Snapshot), s.snapshot = some snap →
        name ≠ "StageChanged" → name ≠ "VoterRegistered" → name ≠ "VoteCast" →
        name ≠ "Finalized" →
        applyReadModelProjection name args bn tx s =
          { s with snapshot := some { snap with lastIndexedBlock := bn } }) ∧
    (∀ (name : String) (args : ArgsJson) (bn : Nat) (tx : String) (s : DbState),
        (applyReadModelProjection name args bn tx s).snapshot.map
            Snapshot.lastIndexedBlock = some bn) :=
  ⟨fun args bn tx s snap n hs ha hn => proj_stage args bn tx s snap n hs ha hn,
   fun args bn tx s snap v w hs hv hne hw hwlt =>
     proj_register args bn tx s snap v w hs hv hne hw hwlt,
   fun args bn tx s snap v p w pr c hs hv hp hplt hw hwlt hpr hc hsum =>
     proj_voteCast args bn tx s snap v p w pr c hs hv hp hplt hw hwlt hpr hc hsum,
   fun args bn tx s snap p hs ha hp => proj_finalized args bn tx s snap p hs ha hp,
   fun name args bn tx s snap hs h1 h2 h3 h4 =>
     proj_unknown name args bn tx s snap hs h1 h2 h3 h4,
   proj_lastIndexed⟩

/-- Witness for C2 at concrete inputs: each recipe evaluated on a small
state. -/
theorem c2_projection_recipes_witness :
    applyReadModelProjection "StageChanged" ⟨[("newStage", .argNat 1)], []⟩ 105 "0xt"
        ⟨[], some 99, some ⟨100, 0, 0, 0, false, 0⟩, [], [], []⟩ =
      ⟨[], some 99, some ⟨105, 1, 0, 0, false, 0⟩, [], [], []⟩ ∧
    applyReadModelProjection "VoterRegistered"
        ⟨[("voter", .argStr "0xA"), ("weight", .argNat 2)], []⟩ 106 "0xt"
        ⟨[], some 99, some ⟨105, 1, 0, 0, false, 0⟩, [], [], []⟩ =
      ⟨[], some 99, some ⟨106, 1, 1, 0, false, 0⟩,
        [("0xa", ⟨some 2, false, some 106, 106⟩)], [], []⟩ ∧
    applyReadModelProjection "VoteCast"
        ⟨[("voter", .argStr "0xA"), ("proposalId", .argNat 2), ("weight", .argNat 3)], []⟩
        107 "0xt"
        ⟨[], some 99, some ⟨106, 1, 1, 0, false, 0⟩,
          [("0xa", ⟨some 2, false, some 106, 106⟩)], [], [(2, ⟨"proposal-2", "10"⟩)]⟩ =
      ⟨[], some 99, some ⟨107, 1, 1, 1, false, 0⟩,
        [("0xa", ⟨some 2, true, some 106, 107⟩)],
        [("0xa", ⟨2, some 3, "0xt", 107⟩)], [(2, ⟨"proposal-2", "13"⟩)]⟩ ∧
    applyReadModelProjection "Finalized" ⟨[("winningProposalId", .argNat 2)], []⟩ 108 "0xt"
        ⟨[], some 99, some ⟨107, 1, 1, 1, false, 0⟩, [], [], []⟩ =
      ⟨[], some 99, some ⟨108, 1, 1, 1, true, 2⟩, [], [], []⟩ ∧
    applyReadModelProjection "OwnershipTransferred" ⟨[], []⟩ 109 "0xt"
        ⟨[], some 99, some ⟨108, 1, 1, 1, true, 2⟩, [], [], []⟩ =
      ⟨[], some 99, some ⟨109, 1, 1, 1, true, 2⟩, [], [], []⟩ ∧
    (applyReadModelProjection "VoteCast" ⟨[], []⟩ 110 "0xt"
        ⟨[], some 99, none, [], [], []⟩).snapshot.map Snapshot.lastIndexedBlock =
      some 110 :=
  ⟨c2_projection_recipes.1 _ 105 "0xt" _ _ 1 rfl (by decide) (by decide),
   c2_projection_recipes.2.1 _ 106 "0xt" _ _ "0xA" 2 rfl (by decide) (by decide)
     (by decide) (by decide),
   c2_projection_recipes.2.2.1 _ 107 "0xt" _ _ "0xA" 2 3 ⟨"proposal-2", "10"⟩ 10 rfl
     (by decide) (by decide) (by decide) (by decide) (by decide) (by decide) (by decide)
     (by decide),
   c2_projection_recipes.2.2.2.1 _ 108 "0xt" _ _ 2 rfl (by decide) (by decide),
   c2_projection_recipes.2.2.2.2.1 _ _ 109 "0xt" _ _ rfl (by decide) (by decide)
     (by decide) (by decide),
   c2_projection_recipes.2.2.2.2.2 "VoteCast" ⟨[], []⟩ 110 "0xt" _⟩

/-! ## C9: defensive vote-before-registration handling -/

/-- C9.  For an applied `VoteCast` whose voter has no `Voter` row, the
projection does not fail or drop the vote: it records the vote row and
creates the voter row with `hasVoted = true`, `registeredAtBlock = null`,
`lastUpdatedBlock` = the event block, and weight defaulting to the vote's
weight when finite and to 1 otherwise. -/
theorem c9_defensive_vote :
    ∀ (args : ArgsJson) (bn : Nat) (tx : String) (s : DbState) (v : String) (p : Nat),
      getArg args "voter" 0 = some (.argStr v) →
      getArg args "proposalId" 1 = some (.argNat p) →
      alistFind (jsToLower v) s.voters = none →
      alistFind (jsToLower v)
          (applyReadModelProjection "VoteCast" args bn tx s).voters =
        some { weight := some ((jsNumber (getArg args "weight" 2)).getD 1),
               hasVoted := true, registeredAtBlock := none,
               lastUpdatedBlock := bn } ∧
      alistFind (jsToLower v)
          (applyReadModelProjection "VoteCast" args bn tx s).votes =
        some { proposalId := fl p, weight := jsNumber (getArg args "weight" 2),
               txHash := tx, blockNumber := bn } := by
  intro args bn tx s v p hv hp hnone
  unfold applyReadModelProjection updateSnapshot
  constructor
  · simp [hv, hp, strOf, alistFind_upsert_self, hnone, jsNumber]
  · simp [hv, hp, strOf, alistFind_upsert_const, jsNumber]

/-- Witness for C9 at concrete inputs: a vote from an unregistered voter
creates the voter row (with the vote's weight) and the vote row. -/
theorem c9_defensive_vote_witness :
    alistFind "0xa"
        (applyReadModelProjection "VoteCast"
          ⟨[("voter", .argStr "0xA"), ("proposalId", .argNat 2), ("weight", .argNat 3)], []⟩
          107 "0xt" ⟨[], some 99, none, [], [], []⟩).voters =
      some ⟨some 3, true, none, 107⟩ ∧
    alistFind "0xa"
        (applyReadModelProjection "VoteCast"
          ⟨[("voter", .argStr "0xA"), ("proposalId", .argNat 2), ("weight", .argNat 3)], []⟩
          107 "0xt" ⟨[], some 99, none, [], [], []⟩).votes =
      some ⟨2, some 3, "0xt", 107⟩ :=
  c9_defensive_vote
    ⟨[("voter", .argStr "0xA"), ("proposalId", .argNat 2), ("weight", .argNat 3)], []⟩
    107 "0xt" ⟨[], some 99, none, [], [], []⟩ "0xA" 2 (by decide) (by decide) (by decide)

/-! ## C7: decode failures degrade to an explicit unknown kind -/

/-- C7.  A raw log entry whose shape cannot be decoded yields the explicit
`("UnknownEvent", {})` pair instead of an exception (`decodeLog` is a total
function and `none` covers both a `null` parse result and a thrown,
caught, decode error); the entry is still recorded in the raw-event ledger
(for every processed entry, decodable or not, its key is present
afterwards); and an `UnknownEvent` projection touches no aggregate: the
voter, vote and proposal tables are unchanged and the snapshot changes
only by the `lastIndexedBlock` stamp. -/
theorem c7_decode_failure_degrades :
    decodeLog (.rawLog none) = ("UnknownEvent", ArgsJson.empty) ∧
    (∀ (ev : ChainLog) (s : DbState),
        hasEventKey (processEvent ev s) ev.txHash ev.logIndex = true) ∧
    (∀ (args : ArgsJson) (bn : Nat) (tx : String) (s : DbState) (snap : Snapshot),
        s.snapshot = some snap →
        applyReadModelProjection "UnknownEvent" args bn tx s =
          { s with snapshot := some { snap with lastIndexedBlock := bn } }) :=
  ⟨rfl, hasEventKey_processEvent_self,
   fun args bn tx s snap hs =>
     proj_unknown "UnknownEvent" args bn tx s snap hs
       (by decide) (by decide) (by decide) (by decide)⟩

/-- Witness for C7 at concrete inputs: an undecodable entry is recorded
and leaves every aggregate unchanged. -/
theorem c7_decode_failure_degrades_witness :
    hasEventKey
        (processEvent ⟨105, "0xb", "0xt", 7, .rawLog none⟩
          ⟨[], some 99, some ⟨100, 1, 2, 1, false, 0⟩, [], [], []⟩) "0xt" 7 = true ∧
    applyReadModelProjection "UnknownEvent" ⟨[], []⟩ 105 "0xt"
        ⟨[], some 99, some ⟨100, 1, 2, 1, false, 0⟩, [], [], []⟩ =
      ⟨[], some 99, some ⟨105, 1, 2, 1, false, 0⟩, [], [], []⟩ :=
  ⟨c7_decode_failure_degrades.2.1 ⟨105, "0xb", "0xt", 7, .rawLog none⟩ _,
   c7_decode_failure_degrades.2.2 ⟨[], []⟩ 105 "0xt" _ ⟨100, 1, 2, 1, false, 0⟩ rfl⟩

/-! ## C5: precision through the projection path -/

/-- C5.  The decoder does keep wide integers in decimal-string form
(third conjunct), but the projection then converts them back through
JavaScript `Number` — a binary64 float — before re-storing them, so the
cumulative weight is NOT the exact arbitrary-precision sum once values
pass `2^53`: a first vote of weight `2^53 + 1 = 9007199254740993` on a
fresh proposal is stored as `"9007199254740992"`, not the exact sum
`0 + 9007199254740993`. -/
theorem c5_precision_loss :
    alistFind 1 (applyReadModelProjection "VoteCast"
        ⟨[("voter", .argStr "0xab"), ("proposalId", .argNat 1),
          ("weight", .argNat 9007199254740993)], []⟩ 105 "0xt"
        ⟨[], some 99, some ⟨100, 2, 1, 0, false, 0⟩, [], [], []⟩).proposals =
      some ⟨"proposal-1", "9007199254740992"⟩ ∧
    toString (0 + 9007199254740993) = "9007199254740993" ∧
    ("9007199254740992" : String) ≠ "9007199254740993" ∧
    decodeLog (.eventLog (some "VoteCast") [(.inr "weight", .argNat 9007199254740993)]) =
      ("VoteCast", ⟨[("weight", .argNat 9007199254740993)], []⟩) := by
  exact ⟨by decide, by decide, by decide, by decide⟩

/-! ## C6: retry policy of the fetch wrapper -/

/-- Is this call outcome a rate-limit error? -/
def isRateLimitedCall {α : Type} : CallResult α → Bool
  | .ok _ => false
  | .err code msg => isRateLimitError code msg

theorem withRetryGo_skip {α : Type} (base cap : Nat) (calls : Nat → CallResult α) :
    ∀ (j budget attempt : Nat),
      (∀ k, k < j → isRateLimitedCall (calls (attempt + k)) = true) → j ≤ budget →
      withRetryGo base cap calls budget attempt =
        ((withRetryGo base cap calls (budget - j) (attempt + j)).1,
          ((List.range j).map fun i => min (base * 2 ^ (attempt + i)) cap) ++
            (withRetryGo base cap calls (budget - j) (attempt + j)).2) := by
  intro j
  induction j with
  | zero => intro budget attempt _ _; simp
  | succ j ih =>
    intro budget attempt h hle
    have h0 : isRateLimitedCall (calls attempt) = true := by
      have := h 0 (Nat.succ_pos j)
      simpa using this
    cases hcall : calls attempt with
    | ok v => rw [hcall] at h0; simp [isRateLimitedCall] at h0
    | err code msg =>
      rw [hcall] at h0
      have hrl : isRateLimitError code msg = true := h0
      cases budget with
      | zero => omega
      | succ b =>
        have hstep : withRetryGo base cap calls (b + 1) attempt =
            ((withRetryGo base cap calls b (attempt + 1)).1,
              min (base * 2 ^ attempt) cap ::
                (withRetryGo base cap calls b (attempt + 1)).2) := by
          conv_lhs => rw [withRetryGo.eq_def]
          simp [hcall, hrl]
        have hsh : ∀ k, k < j → isRateLimitedCall (calls (attempt + 1 + k)) = true := by
          intro k hk
          have := h (k + 1) (by omega)
          have harr : attempt + (k + 1) = attempt + 1 + k := by omega
          rwa [harr] at this
        have := ih b (attempt + 1) hsh (by omega)
        rw [hstep, this]
        have harr2 : attempt + 1 + j = attempt + (j + 1) := by omega
        have hb : b - j = b + 1 - (j + 1) := by omega
        rw [harr2, hb]
        refine congrArg _ ?_
        have hw : (List.range (j + 1)).map (fun i => min (base * 2 ^ (attempt + i)) cap) =
            min (base * 2 ^ attempt) cap ::
              (List.range j).map fun i => min (base * 2 ^ (attempt + 1 + i)) cap := by
          rw [List.range_succ_eq_map, List.map_cons, List.map_map]
          refine congrArg₂ _ (by simp) ?_
          refine List.map_congr_left ?_
          intro i _
          have : attempt + (i + 1) = attempt + 1 + i := by omega
          simp [Function.comp, this]
        rw [hw]
        simp

theorem withRetryGo_ok {α : Type} (base cap : Nat) (calls : Nat → CallResult α)
    (budget attempt : Nat) (v : α) (h : calls attempt = .ok v) :
    withRetryGo base cap calls budget attempt = (.ok v, []) := by
  cases budget <;> (unfold withRetryGo; rw [h])

theorem withRetryGo_err_zero {α : Type} (base cap : Nat) (calls : Nat → CallResult α)
    (attempt : Nat) (code : Option Int) (msg : String)
    (h : calls attempt = .err code msg) :
    withRetryGo base cap calls 0 attempt = (.error (code, msg), []) := by
  unfold withRetryGo
  rw [h]

theorem withRetryGo_err_other {α : Type} (base cap : Nat) (calls : Nat → CallResult α)
    (budget attempt : Nat) (code : Option Int) (msg : String)
    (h : calls attempt = .err code msg) (hrl : isRateLimitError code msg = false) :
    withRetryGo base cap calls budget attempt = (.error (code, msg), []) := by
  cases budget with
  | zero => exact withRetryGo_err_zero base cap calls attempt code msg h
  | succ b =>
    unfold withRetryGo
    rw [h]
    simp [hrl]

/-- C6.  The retry policy of `withRetry`: a call that succeeds on attempt
`K` after `K` rate-limited failures (with `K` within the retry cap)
returns the success unchanged after the backoff waits
`min(base·2^a, cap)` for `a = 0 … K-1`; rate-limited failures on every
allowed attempt propagate the last failure to the caller after exactly
`maxRetries` waits; and a non-rate-limit error propagates immediately at
its first occurrence, with no further retry. -/
theorem c6_retry_policy :
    ∀ (α : Type) (maxRetries base cap : Nat) (calls : Nat → CallResult α),
      (∀ (K : Nat) (v : α), K ≤ maxRetries →
        (∀ k, k < K → isRateLimitedCall (calls k) = true) → calls K = .ok v →
        withRetry maxRetries base cap calls =
          (.ok v, (List.range K).map fun a => min (base * 2 ^ a) cap)) ∧
      (∀ (code : Option Int) (msg : String),
        (∀ k, k < maxRetries → isRateLimitedCall (calls k) = true) →
        calls maxRetries = .err code msg →
        withRetry maxRetries base cap calls =
          (.error (code, msg), (List.range maxRetries).map fun a => min (base * 2 ^ a) cap)) ∧
      (∀ (K : Nat) (code : Option Int) (msg : String), K ≤ maxRetries →
        (∀ k, k < K → isRateLimitedCall (calls k) = true) →
        calls K = .err code msg → isRateLimitError code msg = false →
        withRetry maxRetries base cap calls =
          (.error (code, msg), (List.range K).map fun a => min (base * 2 ^ a) cap)) := by
  intro α maxRetries base cap calls
  refine ⟨?_, ?_, ?_⟩
  · intro K v hK hrl hok
    unfold withRetry
    rw [withRetryGo_skip base cap calls K maxRetries 0 (by simpa using hrl) hK]
    simp only [Nat.zero_add]
    rw [withRetryGo_ok base cap calls (maxRetries - K) K v hok]
    simp
  · intro code msg hrl herr
    unfold withRetry
    rw [withRetryGo_skip base cap calls maxRetries maxRetries 0 (by simpa using hrl)
      (le_refl _)]
    simp only [Nat.zero_add, Nat.sub_self]
    rw [withRetryGo_err_zero base cap calls maxRetries code msg herr]
    simp
  · intro K code msg hK hrl herr hother
    unfold withRetry
    rw [withRetryGo_skip base cap calls K maxRetries 0 (by simpa using hrl) hK]
    simp only [Nat.zero_add]
    rw [withRetryGo_err_other base cap calls (maxRetries - K) K code msg herr hother]
    simp

/-- Witness for C6 at concrete inputs: two 429s then success yields the
value after waits 1500 and 3000 ms; a non-rate-limit error on the first
call propagates immediately with no waits. -/
theorem c6_retry_policy_witness :
    withRetry 8 1500 30000
        (fun k => if k < 2 then .err (some 429) "" else .ok 7) =
      (.ok 7, [1500, 3000]) ∧
    withRetry 8 1500 30000
        (fun _ => (.err none "connection refused" : CallResult Nat)) =
      (.error (none, "connection refused"), []) := by
  constructor
  · have := (c6_retry_policy Nat 8 1500 30000
      (fun k => if k < 2 then .err (some 429) "" else .ok 7)).1 2 7
      (by omega) (by decide) (by decide)
    simpa using this
  · have := (c6_retry_policy Nat 8 1500 30000
      (fun _ => .err none "connection refused")).2.2 0 none "connection refused"
      (by omega) (by omega) (by decide) (by decide)
    simpa using this

/-! ## C10: the stats query is total and division-safe -/

/-- C10.  `getStats` never divides by zero: with no snapshot row it
returns the defensive defaults (stage 0, 0 voters, 0 votes, winner not
computed, winner id 0, last indexed block 0) and participation rate 0;
with a snapshot whose `totalVoters` is 0 the participation rate is 0; and
with `totalVoters > 0` it is `totalVotes / totalVoters` rounded to four
decimal places. -/
theorem c10_stats_division_safe :
    (∀ s : DbState, s.snapshot = none →
        (getStats s).participationRate = 0 ∧ (getStats s).stage = 0 ∧
        (getStats s).totalVoters = 0 ∧ (getStats s).totalVotes = 0 ∧
        (getStats s).winnerComputed = false ∧ (getStats s).winnerProposalId = 0 ∧
        (getStats s).lastIndexedBlock = 0) ∧
    (∀ (s : DbState) (snap : Snapshot), s.snapshot = some snap →
        snap.totalVoters = 0 → (getStats s).participationRate = 0) ∧
    (∀ (s : DbState) (snap : Snapshot), s.snapshot = some snap →
        0 < snap.totalVoters →
        (getStats s).participationRate =
          toFixed4 ((snap.totalVotes : ℚ) / (snap.totalVoters : ℚ))) := by
  refine ⟨?_, ?_, ?_⟩
  · intro s hs
    simp [getStats, hs]
  · intro s snap hs h0
    simp [getStats, hs, h0]
  · intro s snap hs hpos
    simp [getStats, hs, hpos]

/-- Witness for C10 at concrete inputs: a missing snapshot yields all
defaults; zero voters yields rate 0; one vote among three voters yields
rate 0.3333. -/
theorem c10_stats_division_safe_witness :
    (getStats ⟨[], some 99, none, [], [], []⟩).participationRate = 0 ∧
    (getStats ⟨[], some 99, none, [], [], []⟩).totalVoters = 0 ∧
    (getStats ⟨[], some 99, some ⟨100, 1, 0, 0, false, 0⟩, [], [], []⟩).participationRate
      = 0 ∧
    (getStats ⟨[], some 99, some ⟨100, 2, 3, 1, false, 0⟩, [], [], []⟩).participationRate
      = 3333 / 10000 :=
  ⟨(c10_stats_division_safe.1 _ rfl).1,
   (c10_stats_division_safe.1 _ rfl).2.2.1,
   c10_stats_division_safe.2.1 _ ⟨100, 1, 0, 0, false, 0⟩ rfl rfl,
   by
    rw [c10_stats_division_safe.2.2 _ ⟨100, 2, 3, 1, false, 0⟩ rfl (by decide)]
    norm_num [toFixed4, round_eq]⟩

end BallotDApp
